import Mathlib

/-!
A verification development for the RAG (retrieval-augmented generation)
pipeline implemented in `services/rag_pipeline.py`.

The Python code is shallowly embedded as Lean definitions:

* Python `str` is modelled as `String` (the chunk splitter, which works on
  character positions, is stated over `List Char`, the character data of a
  string).
* Python `float` is modelled as `ℚ`.  The only non-rational operation the
  source performs on floats is `x ** 0.5` (square root) inside the cosine
  similarity; it is modelled by `ratSqrt`, which is exact on rationals whose
  square root is rational (all concrete inputs used in this file) and which
  is positive exactly on positive inputs — the only two facts the control
  flow of the source depends on.
* Python exception semantics is modelled by `PyResult`: a raised exception
  carries the state reached so far (side effects before a raise persist).
* External collaborators (the status sink, the embedding and generation
  remote calls, the HTML normalizer, the uuid and clock sources) are
  injectable through `Env`, so that failures can be injected exactly where
  the source code can experience them.
* The Firestore document store is modelled with its real semantics:
  deleting a document deletes the data held by the document itself but NOT
  the documents of its subcollections, and streaming a (sub)collection
  yields documents in lexicographic order of their document id.
-/

/-- Sum of squares of a vector (`sum(a * a for a in v)` in the source). -/
def sumSq (v : List ℚ) : ℚ := (v.map (fun a => a * a)).sum

/-- Dot product as the source computes it:
`sum(a * b for a, b in zip(q, c))` — `zip` truncates to the shorter list. -/
def dotProd (q c : List ℚ) : ℚ := (List.zipWith (· * ·) q c).sum

/-- Largest `k ≤ bound` with `k * k ≤ n` (a structurally recursive exact
floor square root once `bound = n`). -/
def natSqrtFrom : Nat → Nat → Nat
  | 0, _ => 0
  | k + 1, n => if (k + 1) * (k + 1) ≤ n then k + 1 else natSqrtFrom k n

/-- Exact floor square root of a natural number. -/
def natSqrt (n : Nat) : Nat := natSqrtFrom n n

/-- Model of the Python float operation `x ** 0.5` on a nonnegative rational.
Exact whenever the true square root is rational; in every case it is
positive iff the input is positive, which is the only property of the
square root on which the control flow of the source (`if norm > 0`)
depends. -/
def ratSqrt (q : ℚ) : ℚ := (natSqrt q.num.toNat : ℚ) / (natSqrt q.den : ℚ)

/-- The zero vector substituted by the source for a failed embedding:
`[0.0] * 768` (the hardcoded "standard embedding dimension"). -/
def zero768 : List ℚ := List.replicate 768 0

/-- Chunk metadata, as built in `create_chunks_with_metadata`. -/
structure ChunkMeta where
  page_id : String
  page_name : String
  chunk_index : Nat
  total_chunks : Nat
  char_count : Nat
  user_id : String
  created_at : String
deriving DecidableEq, Repr

/-- A chunk document as produced by `create_chunks_with_metadata`
(`{"id": uuid, "text": ..., "metadata": {...}}`). -/
structure ChunkDoc where
  id : String
  text : String
  metadata : ChunkMeta
deriving DecidableEq, Repr

/-- A chunk record as stored in the `chunks` subcollection:
`{**chunk, "embedding": ..., "embedding_dimension": ...}`. -/
structure StoredChunk where
  id : String
  text : String
  metadata : ChunkMeta
  embedding : List ℚ
  embedding_dimension : Nat
deriving DecidableEq, Repr

/-- The metadata document stored at `rag/<user_id>` by
`store_vectors_in_firestore`. -/
structure RagMeta where
  total_chunks : Nat
  total_pages : Nat
  embedding_model : String
  chunk_size : Nat
  chunk_overlap : Nat
  created_at : String
  updated_at : String
deriving DecidableEq, Repr

/-- The per-user region of the Firestore `rag` collection: the rag document
of the user (present iff the document itself exists, i.e. has data) and the
`chunks` subcollection, an id-keyed set of chunk records.  Chunk document
ids in the source are the strings `chunk_<offset>`; we key records by the
offset `<offset>` and recover the document-id string with `docId` where the
(lexicographic) Firestore ordering matters. -/
structure RagDoc where
  metaDoc : Option RagMeta
  chunks : List (Nat × StoredChunk)
deriving DecidableEq, Repr

/-- The RTDB `users/<uid>/rag/currentStep` record written by `log_step`. -/
structure StepLog where
  step : String
  details : String
deriving DecidableEq, Repr

/-- The RTDB `users/<uid>/rag` status record written at the end of
`store_vectors_in_firestore`. -/
structure RtdbRagStatus where
  enabled : Bool
  last_updated : String
  total_chunks : Nat
  total_pages : Nat
  status : String
deriving DecidableEq, Repr

/-- The mutable external state the pipeline writes to. -/
structure PState where
  rag : RagDoc
  currentStep : Option StepLog
  rtdbRag : Option RtdbRagStatus
deriving DecidableEq, Repr

/-- Result of running a pipeline step: Python exception semantics, so a
raised exception (`exn`) still carries the state reached so far — side
effects performed before the raise persist. -/
inductive PyResult (α : Type) where
  | ok : α → PState → PyResult α
  | exn : String → PState → PyResult α
deriving DecidableEq, Repr

/-- A page as returned by `load_user_pages` (the fields the pipeline
reads). -/
structure Page where
  id : String
  name : String
  content : String
deriving DecidableEq, Repr

/-- The injectable external collaborators of one `RAGPipeline` instance:
fault switches for the status sink and the Firestore delete, the remote
embedding/generation calls, the HTML normalizer (BeautifulSoup processing,
an external library, abstracted as a function), the uuid stream and the
clock.  `Except.error` on a remote call models that call raising. -/
structure Env where
  userId : String
  /-- When true, the RTDB status write raises on every call (status sink
  down); when false, the status sink is healthy. -/
  statusFails : Bool
  /-- When true, the Firestore get/delete inside `clear_old_vectors`
  raises. -/
  deleteFails : Bool
  /-- Whether the client object has `batch_embed_contents` (when `False`,
  calling it raises `AttributeError`, triggering the per-item fallback). -/
  batchSupported : Bool
  embedBatch : List String → Except String (List (List ℚ))
  embedOne : String → Except String (List ℚ)
  generate : String → Except String String
  htmlToText : String → String
  uuid : Nat → String
  now : String

/-- Model of `RAGPipeline.log_step`: prints and then writes the RTDB
`currentStep` record.  The write is not guarded by any `try`, so a failing
status sink makes `log_step` itself raise. -/
def log_step (env : Env) (step details : String) (s : PState) : PyResult Unit :=
  if env.statusFails then PyResult.exn "status write failed" s
  else PyResult.ok () { s with currentStep := some ⟨step, details⟩ }

/-- Firestore `set` on a document of the `chunks` subcollection: overwrite
the record at the id if present, otherwise create it. -/
def upsert (k : Nat) (v : StoredChunk) : List (Nat × StoredChunk) → List (Nat × StoredChunk)
  | [] => [(k, v)]
  | (k2, v2) :: rest => if k2 = k then (k, v) :: rest else (k2, v2) :: upsert k v rest

/-- The chunk-writing loop of `store_vectors_in_firestore`: record `i` of
the list is written at document id `chunk_(base + i)`.  The source groups
the writes into batches of 50 and commits each batch; the committed batches
apply exactly this sequence of sets, so the final state is the same. -/
def writeChunksAux (base : Nat) : List StoredChunk → List (Nat × StoredChunk) → List (Nat × StoredChunk)
  | [], m => m
  | c :: cs, m => writeChunksAux (base + 1) cs (upsert base c m)

/-- Model of `chunks_with_vectors`: each chunk is paired with
`embeddings[i]`, adding the fields `embedding` and `embedding_dimension`
(the length of that vector). -/
def combineChunks (chunks : List ChunkDoc) (embeddings : List (List ℚ)) : List StoredChunk :=
  List.zipWith
    (fun c e => { id := c.id, text := c.text, metadata := c.metadata,
                  embedding := e, embedding_dimension := e.length })
    chunks embeddings

/-- Model of `unique_pages`: the number of distinct page ids among the
chunk metadata (a Python set cardinality in the source). -/
def uniquePages (chunks : List ChunkDoc) : Nat :=
  ((chunks.map (fun c => c.metadata.page_id)).dedup).length

/-- The metadata document written by `store_vectors_in_firestore`. -/
def newRagMeta (env : Env) (totalChunks totalPages : Nat) : RagMeta :=
  { total_chunks := totalChunks, total_pages := totalPages,
    embedding_model := "text-embedding-004", chunk_size := 1000,
    chunk_overlap := 200, created_at := env.now, updated_at := env.now }

/-- Model of `RAGPipeline.clear_old_vectors`.  The first `log_step` is
outside the `try`; the body gets the rag document of the user and, if it
exists, deletes it.  Per Firestore semantics the delete removes only the
data held by the document itself (`metaDoc`), never the documents of the
`chunks` subcollection.  Any exception from the body is caught, logged, and
NOT re-raised. -/
def clear_old_vectors (env : Env) (s : PState) : PyResult Unit :=
  match log_step env "Clearing Old Vectors" "starting" s with
  | PyResult.exn e s' => PyResult.exn e s'
  | PyResult.ok _ s1 =>
    if env.deleteFails then
      -- the get/delete raised; the handler logs and swallows the exception
      log_step env "Clear Vectors" "error" s1
    else if s1.rag.metaDoc.isSome then
      log_step env "Old Vectors Cleared" "completed"
        { s1 with rag := { s1.rag with metaDoc := none } }
    else
      log_step env "No Old Vectors" "none_found" s1

/-- The body of the `try` of `store_vectors_in_firestore`: clear, combine
chunks with embeddings (`embeddings[i]` raises `IndexError` when there are
fewer embeddings than chunks), write the metadata document, write all chunk
records, write the RTDB status record, log completion. -/
def storeBody (env : Env) (chunks : List ChunkDoc) (embeddings : List (List ℚ))
    (s : PState) : PyResult Unit :=
  match clear_old_vectors env s with
  | PyResult.exn e s' => PyResult.exn e s'
  | PyResult.ok _ s1 =>
    if embeddings.length < chunks.length then
      PyResult.exn "IndexError: list index out of range" s1
    else
      let cwv := combineChunks chunks embeddings
      let s2 := { s1 with rag := { s1.rag with
        metaDoc := some (newRagMeta env cwv.length (uniquePages chunks)) } }
      let s3 := { s2 with rag := { s2.rag with
        chunks := writeChunksAux 0 cwv s2.rag.chunks } }
      -- the RTDB write of the compact rag status record: governed by the
      -- same status sink as `log_step`
      if env.statusFails then PyResult.exn "status write failed" s3
      else
        let newStatus : RtdbRagStatus :=
          { enabled := true, last_updated := env.now,
            total_chunks := cwv.length, total_pages := uniquePages chunks,
            status := "ready" }
        let s4 := { s3 with rtdbRag := some newStatus }
        log_step env "Vectors Stored" "completed" s4

/-- Model of `RAGPipeline.store_vectors_in_firestore`: log, run the body,
and on any exception log the error and re-raise (re-raising is replaced by
the exception of the handler itself if the error log also raises). -/
def store_vectors_in_firestore (env : Env) (chunks : List ChunkDoc)
    (embeddings : List (List ℚ)) (s : PState) : PyResult Unit :=
  match log_step env "Storing Vectors" "starting" s with
  | PyResult.exn e s' => PyResult.exn e s'
  | PyResult.ok _ s1 =>
    match storeBody env chunks embeddings s1 with
    | PyResult.ok u s2 => PyResult.ok u s2
    | PyResult.exn e s2 =>
      match log_step env "Storing Vectors" ("error: " ++ e) s2 with
      | PyResult.ok _ s3 => PyResult.exn e s3
      | PyResult.exn e2 s3 => PyResult.exn e2 s3

/-- Default chunk size (`CHUNK_SIZE = 1000` in the source). -/
def CHUNK_SIZE : Nat := 1000

/-- Default chunk overlap (`CHUNK_OVERLAP = 200` in the source). -/
def CHUNK_OVERLAP : Nat := 200

/-- Modelled from the spec: the chunk splitter used by
`create_chunks_with_metadata` is `RecursiveCharacterTextSplitter` from the
`langchain` library, whose code is not part of this repository.  Following
the spec (a deterministic pure splitter producing chunks of length at most
`chunk_size` where the last `chunk_overlap` characters of chunk `i` reappear
at the start of chunk `i + 1`), it is modelled at character granularity: a
sliding window of width `CHUNK_SIZE` advancing by
`CHUNK_SIZE - CHUNK_OVERLAP` characters. -/
def chunksOfText (s : List Char) : List (List Char) :=
  if h : s.length ≤ CHUNK_SIZE then [s]
  else s.take CHUNK_SIZE :: chunksOfText (s.drop (CHUNK_SIZE - CHUNK_OVERLAP))
termination_by s.length
decreasing_by
  simp only [List.length_drop, CHUNK_SIZE, CHUNK_OVERLAP] at *
  omega

/-- The splitter lifted to strings. -/
def splitText (t : String) : List String :=
  (chunksOfText t.data).map String.mk

/-- The per-page work of `create_chunks_with_metadata`: normalize the page
content, skip the page when the normalized text is blank, split into chunks
and attach metadata (`chunk_index` within the page, `total_chunks` for the
page, `char_count`). -/
def pageItems (env : Env) (p : Page) : List (String × ChunkMeta) :=
  let t := env.htmlToText p.content
  if t.trim.isEmpty then []
  else
    let cs := splitText t
    cs.enum.map (fun ic =>
      (ic.2, { page_id := p.id, page_name := p.name, chunk_index := ic.1,
               total_chunks := cs.length, char_count := ic.2.length,
               user_id := env.userId, created_at := env.now }))

/-- The pure part of `create_chunks_with_metadata`: all chunk documents, in
page order then chunk order, with ids drawn from the uuid stream in
creation order. -/
def create_chunks_core (env : Env) (pages : List Page) : List ChunkDoc :=
  ((pages.flatMap (pageItems env)).enum).map
    (fun g => { id := env.uuid g.1, text := g.2.1, metadata := g.2.2 })

/-- Model of `RAGPipeline.create_chunks_with_metadata`: a start log, the
pure chunk construction, and a completion log.  The function has no `try`,
so a failing status write propagates. -/
def create_chunks_with_metadata (env : Env) (pages : List Page) (s : PState) :
    PyResult (List ChunkDoc) :=
  match log_step env "Creating Chunks" "starting" s with
  | PyResult.exn e s' => PyResult.exn e s'
  | PyResult.ok _ s1 =>
    let chunks := create_chunks_core env pages
    match log_step env "Chunks Created" "completed" s1 with
    | PyResult.exn e s' => PyResult.exn e s'
    | PyResult.ok _ s2 => PyResult.ok chunks s2

/-- One per-item embedding call with its own `try`: a failure substitutes
the zero vector of the hardcoded dimension 768. -/
def itemEmbed (env : Env) (c : ChunkDoc) : List ℚ :=
  match env.embedOne c.text with
  | Except.ok v => v
  | Except.error _ => zero768

/-- The batch loop of `generate_embeddings`, mirroring its `try` structure:
process the pending chunks in batches of 20; inside the loop every failure
is absorbed (the whole-batch handler substitutes one zero vector per batch
element), so the loop itself never raises.  When the batched call is
unavailable (`batchSupported = false`, the AttributeError of the source)
each element falls back to its own call via `itemEmbed`.  The progress
`log_step` sits inside the outer `try`: if the status write raises there,
the handler appends a zero vector per batch element on top of the vectors
the batch already appended (exactly as the mutable Python list would
grow). -/
def genLoop (env : Env) (total : Nat) (pending : List ChunkDoc)
    (acc : List (List ℚ)) (s : PState) : List (List ℚ) × PState :=
  match pending with
  | [] => (acc, s)
  | p :: ps =>
    let batch := (p :: ps).take 20
    let rest := (p :: ps).drop 20
    if env.batchSupported then
      match env.embedBatch (batch.map (fun c => c.text)) with
      | Except.error _ =>
        -- the batched call raised: the whole-batch handler appends zeros
        genLoop env total rest (acc ++ batch.map (fun _ => zero768)) s
      | Except.ok vs =>
        let acc1 := acc ++ vs
        if acc1.length % 40 = 0 ∨ acc1.length = total then
          match log_step env "Embedding Progress" "in_progress" s with
          | PyResult.ok _ s' => genLoop env total rest acc1 s'
          | PyResult.exn _ s' =>
            genLoop env total rest (acc1 ++ batch.map (fun _ => zero768)) s'
        else genLoop env total rest acc1 s
    else
      let acc1 := acc ++ batch.map (itemEmbed env)
      if acc1.length % 40 = 0 ∨ acc1.length = total then
        match log_step env "Embedding Progress" "in_progress" s with
        | PyResult.ok _ s' => genLoop env total rest acc1 s'
        | PyResult.exn _ s' =>
          genLoop env total rest (acc1 ++ batch.map (fun _ => zero768)) s'
      else genLoop env total rest acc1 s
termination_by pending.length
decreasing_by
  all_goals simp only [List.length_drop, List.length_cons]
  all_goals omega

/-- Model of `RAGPipeline.generate_embeddings`: a start log (outside any
`try`), the batch loop, and a completion log (outside any `try`). -/
def generate_embeddings (env : Env) (chunks : List ChunkDoc) (s : PState) :
    PyResult (List (List ℚ)) :=
  match log_step env "Generating Embeddings" "starting" s with
  | PyResult.exn e s' => PyResult.exn e s'
  | PyResult.ok _ s1 =>
    match genLoop env chunks.length chunks [] s1 with
    | (es, s2) =>
      match log_step env "Embeddings Generated" "completed" s2 with
      | PyResult.exn e s' => PyResult.exn e s'
      | PyResult.ok _ s3 => PyResult.ok es s3

/-- Model of `RAGPipeline.load_user_pages`.  The first log is outside the
`try`.  The page-index read and the per-page Firestore fetches are the
external document source; the pages they yield are supplied as `pages`
(per-page fetch errors are absorbed by the source with `continue`).  The
`except` clause logs and re-raises. -/
def load_user_pages (env : Env) (pages : List Page) (s : PState) :
    PyResult (List Page) :=
  match log_step env "Loading Pages" "starting" s with
  | PyResult.exn e s' => PyResult.exn e s'
  | PyResult.ok _ s1 =>
    match log_step env "Pages Loaded" "completed" s1 with
    | PyResult.ok _ s2 => PyResult.ok pages s2
    | PyResult.exn e s2 =>
      match log_step env "Loading Pages" ("error: " ++ e) s2 with
      | PyResult.ok _ s3 => PyResult.exn e s3
      | PyResult.exn e2 s3 => PyResult.exn e2 s3

/-- The body of the `try` of `build_rag_index`: load pages, return early
(successfully) when there are none; chunk, return early (successfully) when
no chunks were produced; embed; store; log completion. -/
def buildBody (env : Env) (pages : List Page) (s : PState) : PyResult Unit :=
  match log_step env "RAG Pipeline" "starting" s with
  | PyResult.exn e s' => PyResult.exn e s'
  | PyResult.ok _ s1 =>
    match load_user_pages env pages s1 with
    | PyResult.exn e s' => PyResult.exn e s'
    | PyResult.ok ps s2 =>
      if ps.isEmpty then
        match log_step env "RAG Pipeline" "completed: No pages found" s2 with
        | PyResult.exn e s' => PyResult.exn e s'
        | PyResult.ok _ s3 => PyResult.ok () s3
      else
        match create_chunks_with_metadata env ps s2 with
        | PyResult.exn e s' => PyResult.exn e s'
        | PyResult.ok chunks s3 =>
          if chunks.isEmpty then
            match log_step env "RAG Pipeline" "completed: No chunks created" s3 with
            | PyResult.exn e s' => PyResult.exn e s'
            | PyResult.ok _ s4 => PyResult.ok () s4
          else
            match generate_embeddings env chunks s3 with
            | PyResult.exn e s' => PyResult.exn e s'
            | PyResult.ok es s4 =>
              match store_vectors_in_firestore env chunks es s4 with
              | PyResult.exn e s' => PyResult.exn e s'
              | PyResult.ok _ s5 =>
                match log_step env "RAG Pipeline" "completed" s5 with
                | PyResult.exn e s' => PyResult.exn e s'
                | PyResult.ok _ s6 => PyResult.ok () s6

/-- Model of `RAGPipeline.build_rag_index`: run the body; on any exception
log the error and re-raise (replaced by the exception of the handler itself
if the error log also raises). -/
def build_rag_index (env : Env) (pages : List Page) (s : PState) : PyResult Unit :=
  match buildBody env pages s with
  | PyResult.ok u s' => PyResult.ok u s'
  | PyResult.exn e s' =>
    match log_step env "RAG Pipeline" ("error: " ++ e) s' with
    | PyResult.ok _ s2 => PyResult.exn e s2
    | PyResult.exn e2 s2 => PyResult.exn e2 s2

/-- The Firestore document id of the chunk record at offset `n`. -/
def docId (n : Nat) : String := "chunk_" ++ toString n

/-- Byte-wise lexicographic comparison of character lists, the order in
which Firestore streams the documents of a collection (by document id). -/
def charListLeB : List Char → List Char → Bool
  | [], _ => true
  | _ :: _, [] => false
  | a :: as, b :: bs =>
    if a.val < b.val then true
    else if b.val < a.val then false
    else charListLeB as bs

/-- Lexicographic comparison of document ids. -/
def docIdLeB (a b : String) : Bool := charListLeB a.data b.data

/-- Streaming the `chunks` subcollection
(`chunks_collection.stream()`): all chunk records, in lexicographic order
of their document id `chunk_<offset>` (note: for offsets past 9 this is NOT
the numeric order — e.g. `chunk_10` streams before `chunk_2`). -/
def streamChunks (r : RagDoc) : List StoredChunk :=
  (List.insertionSort (fun a b => docIdLeB (docId a.1) (docId b.1) = true)
    r.chunks).map (fun kv => kv.2)

/-- The similarity loop of `search_similar_chunks`: skip records whose
embedding field is the empty list (`if not chunk_embedding`), compute the
cosine similarity, and keep the pair only when both norms are positive. -/
def scoreChunks (qe : List ℚ) (cs : List StoredChunk) : List (ℚ × StoredChunk) :=
  cs.filterMap (fun c =>
    if c.embedding.isEmpty then none
    else
      let d := dotProd qe c.embedding
      let na := ratSqrt (sumSq qe)
      let nb := ratSqrt (sumSq c.embedding)
      if 0 < na ∧ 0 < nb then some (d / (na * nb), c) else none)

/-- The order realized by the Python stable sort
`similarities.sort(key=lambda x: x[0], reverse=True)` on entries annotated
with their position in the streamed list: score strictly greater first,
ties by ascending position.  A stable descending sort by score produces
exactly the unique ordering sorted by this relation. -/
def simLE (a b : Nat × ℚ × StoredChunk) : Prop :=
  b.2.1 < a.2.1 ∨ (a.2.1 = b.2.1 ∧ a.1 ≤ b.1)

instance : DecidableRel simLE := fun a b =>
  inferInstanceAs (Decidable (b.2.1 < a.2.1 ∨ (a.2.1 = b.2.1 ∧ a.1 ≤ b.1)))

instance : IsTotal (Nat × ℚ × StoredChunk) simLE where
  total a b := by
    rcases lt_trichotomy a.2.1 b.2.1 with h | h | h
    · exact Or.inr (Or.inl h)
    · rcases Nat.le_total a.1 b.1 with h2 | h2
      · exact Or.inl (Or.inr ⟨h, h2⟩)
      · exact Or.inr (Or.inr ⟨h.symm, h2⟩)
    · exact Or.inl (Or.inl h)

instance : IsTrans (Nat × ℚ × StoredChunk) simLE where
  trans a b c hab hbc := by
    rcases hab with h1 | ⟨h1, h1'⟩
    · rcases hbc with h2 | ⟨h2, h2'⟩
      · exact Or.inl (h2.trans h1)
      · exact Or.inl (h2 ▸ h1)
    · rcases hbc with h2 | ⟨h2, h2'⟩
      · exact Or.inl (by rw [h1]; exact h2)
      · exact Or.inr ⟨h1.trans h2, h1'.trans h2'⟩

/-- The ranking of `search_similar_chunks`: annotate each scored record
with its position in the stream and sort.  The relation `simLE` is a linear
order on position-annotated entries, so the sorted result is the output of
any stable descending-by-score sort, in particular of the Python one. -/
def rankChunks (qe : List ℚ) (cs : List StoredChunk) :
    List (Nat × ℚ × StoredChunk) :=
  List.insertionSort simLE (scoreChunks qe cs).enum

/-- One retrieval result
(`{"score": sim, "chunk": chunk, "metadata": chunk.get('metadata', {})}`). -/
structure SearchResult where
  score : ℚ
  chunk : StoredChunk
  metadata : ChunkMeta
deriving DecidableEq, Repr

/-- Model of `RAGPipeline.search_similar_chunks`: embed the query, return
`[]` if the rag document of the user does not exist, stream the chunk
records, score, sort, and return the `top_k` best.  The whole body is
wrapped in a `try` whose handler returns `[]`, so the function never raises
(the only raising operation is the query-embedding call).  It performs no
writes: the state is returned unchanged. -/
def search_similar_chunks (env : Env) (query : String) (top_k : Nat)
    (s : PState) : PyResult (List SearchResult) :=
  match env.embedOne query with
  | Except.error _ => PyResult.ok [] s
  | Except.ok qe =>
    match s.rag.metaDoc with
    | none => PyResult.ok [] s
    | some _ =>
      let results := ((rankChunks qe (streamChunks s.rag)).take top_k).map
        (fun p => ({ score := p.2.1, chunk := p.2.2,
                     metadata := p.2.2.metadata } : SearchResult))
      PyResult.ok results s

/-- One entry of the `matches` list of a chat response. -/
structure MatchOut where
  page_name : String
  chunk_index : Nat
  score : ℚ
  text_preview : String
deriving DecidableEq, Repr

/-- A chat response dictionary.  The optional fields model the presence or
absence of the corresponding keys: the source builds the not-found response
without a `context_used` key and with a `message` key, the success response
with `context_used` and neither `message` nor `error`, and the error
response with an `error` key. -/
structure RagAnswer where
  answer : String
  «matches» : List MatchOut
  context_used : Option Nat
  message : Option String
  error : Option String
deriving DecidableEq, Repr

/-- Text preview of a match: the first 200 characters, with an ellipsis
when the text is longer than 200 characters. -/
def textPreview (t : String) : String :=
  if 200 < t.data.length then String.mk (t.data.take 200) ++ "..." else t

/-- One block of the context assembled by `rag_chat`. -/
def contextBlock (i : Nat) (m : SearchResult) : String :=
  "[" ++ toString i ++ "] PAGE: " ++ m.metadata.page_name ++ " | chunk: "
    ++ toString m.metadata.chunk_index ++ " | score: " ++ toString m.score
    ++ "\n" ++ m.chunk.text

/-- The grounded prompt assembled by `rag_chat` (instruction text
abbreviated; no claim depends on its wording). -/
def ragPrompt (question context : String) : String :=
  "You are a helpful assistant that answers questions based on the personal "
    ++ "knowledge base of the user. Use ONLY the provided context from their "
    ++ "notes to answer the question. Cite the relevant sections using [1], "
    ++ "[2], etc.\n\nQUESTION: " ++ question
    ++ "\n\nCONTEXT FROM YOUR NOTES:\n" ++ context ++ "\n\nANSWER:"

/-- Model of `RAGPipeline.rag_chat`: search (which never raises), return
the fixed not-found response when there are no matches, otherwise assemble
the prompt and call the generation model; the whole body is wrapped in a
`try` whose handler returns the fixed error response, so `rag_chat` always
returns a structured answer and never raises. -/
def rag_chat (env : Env) (question : String) (s : PState) : RagAnswer :=
  match search_similar_chunks env question 5 s with
  | PyResult.exn e _ =>
    -- unreachable (search never raises); the outer handler would produce
    -- the fixed error response
    { answer := "Sorry, there was an error processing your question.",
      «matches» := [], context_used := none, message := none, error := some e }
  | PyResult.ok found _ =>
    if found.isEmpty then
      { answer := "NOT_FOUND", «matches» := [], context_used := none,
        message := some "No relevant content found in your knowledge base.",
        error := none }
    else
      let blocks := found.enum.map (fun p => contextBlock (p.1 + 1) p.2)
      let context := String.intercalate "\n\n" blocks
      match env.generate (ragPrompt question context) with
      | Except.error e =>
        { answer := "Sorry, there was an error processing your question.",
          «matches» := [], context_used := none, message := none,
          error := some e }
      | Except.ok txt =>
        let a := if txt.trim.isEmpty then
            "Sorry, I could not generate a response." else txt.trim
        { answer := a,
          «matches» := found.map (fun m =>
            ({ page_name := m.metadata.page_name,
               chunk_index := m.metadata.chunk_index,
               score := m.score,
               text_preview := textPreview m.chunk.text } : MatchOut)),
          context_used := some found.length, message := none,
          error := none }

/-- Whether a pipeline step completed without raising. -/
def PyResult.isOk {α : Type} : PyResult α → Bool
  | PyResult.ok _ _ => true
  | PyResult.exn _ _ => false

/-- The state reached by a pipeline step (final on success, the state at
the raise otherwise — Python side effects persist). -/
def PyResult.state {α : Type} : PyResult α → PState
  | PyResult.ok _ s => s
  | PyResult.exn _ s => s

/-- The value returned by a search (the empty list if it raised, which
cannot happen). -/
def resultsOf (r : PyResult (List SearchResult)) : List SearchResult :=
  match r with
  | PyResult.ok v _ => v
  | PyResult.exn _ _ => []

/-- Reassembly of a chunk list as described by the spec: concatenate in
`chunk_index` order after removing from every chunk but the first the
overlap region (the final `CHUNK_OVERLAP` characters of chunk `i`
reappearing at the start of chunk `i + 1`). -/
def reconstruct (cs : List (List Char)) : List Char :=
  match cs with
  | [] => []
  | c :: rest => c ++ (rest.map (fun d => d.drop CHUNK_OVERLAP)).flatten

/-- The state produced by a successful `store_vectors_in_firestore` run:
new metadata document, all chunk records written at offsets `0..n-1` on top
of whatever the (non-recursive) clear left behind, fresh RTDB status, and
the final step log. -/
def storeEffect (env : Env) (chunks : List ChunkDoc)
    (embeddings : List (List ℚ)) (s : PState) : PState :=
  { rag := { metaDoc := some (newRagMeta env
               (combineChunks chunks embeddings).length (uniquePages chunks)),
             chunks := writeChunksAux 0 (combineChunks chunks embeddings)
               s.rag.chunks },
    currentStep := some ⟨"Vectors Stored", "completed"⟩,
    rtdbRag := some { enabled := true, last_updated := env.now,
                      total_chunks := (combineChunks chunks embeddings).length,
                      total_pages := uniquePages chunks, status := "ready" } }

/-- A healthy environment: status sink up, Firestore up, batched embedding
supported, every remote call succeeding with fixed small vectors. -/
def envG : Env :=
  { userId := "u1", statusFails := false, deleteFails := false,
    batchSupported := true,
    embedBatch := fun ts => Except.ok (ts.map (fun _ => [(1 : ℚ), 0])),
    embedOne := fun _ => Except.ok [(1 : ℚ), 0],
    generate := fun _ => Except.ok "ans",
    htmlToText := fun t => t, uuid := fun n => toString n, now := "t0" }

/-- The healthy environment with only the status sink failing. -/
def envBadStatus : Env := { envG with statusFails := true }

/-- The healthy environment with only the Firestore get/delete of
`clear_old_vectors` failing. -/
def envDel : Env := { envG with deleteFails := true }

/-- An environment whose client lacks the batched embedding call and whose
per-item embedding call fails exactly on the text `"B"`. -/
def envNoBatch : Env :=
  { envG with
      batchSupported := false
      embedOne := fun t =>
        if t = "B" then Except.error "boom" else Except.ok [(7 : ℚ)] }

/-- An environment whose batched embedding call always fails (and so does
the per-item one). -/
def envBatchFail : Env :=
  { envG with
      embedBatch := fun _ => Except.error "net down"
      embedOne := fun _ => Except.error "net down" }

/-- An environment differing from `envG` only in claim-irrelevant fields
(it agrees with `envG` on the per-item embedding call). -/
def envAlt : Env :=
  { envG with
      deleteFails := true
      generate := fun _ => Except.error "down"
      now := "t9" }

/-- Helper: chunk metadata for the concrete states. -/
def chunkMetaOf (pid pname : String) (ci tc : Nat) : ChunkMeta :=
  { page_id := pid, page_name := pname, chunk_index := ci, total_chunks := tc,
    char_count := 1, user_id := "u1", created_at := "t" }

/-- Helper: a stored chunk record for the concrete states. -/
def storedOf (pid pname : String) (ci tc : Nat) (e : List ℚ) : StoredChunk :=
  { id := "x", text := "T", metadata := chunkMetaOf pid pname ci tc,
    embedding := e, embedding_dimension := e.length }

/-- A plausible metadata document for pre-existing indexes. -/
def sampleRagMeta : RagMeta :=
  { total_chunks := 3, total_pages := 2,
    embedding_model := "text-embedding-004", chunk_size := 1000,
    chunk_overlap := 200, created_at := "t", updated_at := "t" }

/-- A user with no stored index and empty status records. -/
def stEmpty : PState :=
  { rag := { metaDoc := none, chunks := [] }, currentStep := none,
    rtdbRag := none }

/-- A stored index in which page A contributed chunks at offsets 0 and 1
(page-local `chunk_index` 0 and 1) and page B contributed the chunk at
offset 2 (page-local `chunk_index` 0), all with the same embedding, so
every chunk ties on similarity for the query vector. -/
def stTie : PState :=
  { rag := { metaDoc := some sampleRagMeta,
             chunks := [(0, storedOf "A" "PA" 0 2 [1, 0]),
                        (1, storedOf "A" "PA" 1 2 [1, 0]),
                        (2, storedOf "B" "PB" 0 1 [1, 0])] },
    currentStep := none, rtdbRag := none }

/-- The record at offset 1 of a previously stored two-chunk index. -/
def staleChunk : StoredChunk := storedOf "A" "PA" 1 2 [2, 0]

/-- A user with a previously stored index of two chunk records. -/
def stOld : PState :=
  { rag := { metaDoc := some sampleRagMeta,
             chunks := [(0, storedOf "A" "PA" 0 2 [1, 0]), (1, staleChunk)] },
    currentStep := none, rtdbRag := none }

/-- A stored index holding one zero-vector chunk (the degrade fallback) and
one chunk with a nonzero embedding. -/
def stZero : PState :=
  { rag := { metaDoc := some sampleRagMeta,
             chunks := [(0, storedOf "A" "PA" 0 2 [0, 0]),
                        (1, storedOf "A" "PA" 1 2 [1, 0])] },
    currentStep := none, rtdbRag := none }

/-- A fresh single-chunk document for a new build. -/
def newChunkDoc : ChunkDoc :=
  { id := "n", text := "N", metadata := chunkMetaOf "C" "PC" 0 1 }

/-- Concrete chunk documents for the embedding-generation scenarios. -/
def cdocOf (t : String) : ChunkDoc :=
  { id := "i", text := t, metadata := chunkMetaOf "P" "PN" 0 3 }

/-- C1: the claim states that `clear_old_vectors` deletes the previously
stored index including every chunk sub-record, so that after a replace only
the newly written chunk records remain.  Evaluating the code at a user with
a previously stored two-chunk index and a new one-chunk build: the clear
reports success but leaves both chunk records of the subcollection in
place (the Firestore document delete is not recursive), and after the
replace completes successfully the stale record at document offset 1 — from
the previous, larger index — is still stored alongside the single new
record.  This contradicts the claim (and the stated intent of the code,
"Clear old vectors to avoid conflicts"). -/
theorem c1_stale_chunk_survives_replace :
    (clear_old_vectors envG stOld).isOk = true
    ∧ (clear_old_vectors envG stOld).state.rag.chunks = stOld.rag.chunks
    ∧ (store_vectors_in_firestore envG [newChunkDoc] [[5, 0]] stOld).isOk = true
    ∧ (combineChunks [newChunkDoc] [[5, 0]]).length = 1
    ∧ (store_vectors_in_firestore envG [newChunkDoc] [[5, 0]] stOld).state.rag.chunks.lookup 1
        = some staleChunk := by
  with_unfolding_all decide

/-- C2 (counterexample): the claim states that a failure of the status-sink
write leaves the pipeline result unchanged.  With two environments
differing only in the status sink, the build succeeds when the sink is
healthy and raises when the sink is down, so the result is not unchanged. -/
theorem c2_status_write_failure_changes_result :
    envBadStatus = { envG with statusFails := true }
    ∧ (build_rag_index envG [] stEmpty).isOk = true
    ∧ (build_rag_index envBadStatus [] stEmpty).isOk = false :=
  ⟨rfl, by with_unfolding_all decide, by with_unfolding_all decide⟩

/-- C2 (amended): a failure of the status-sink write performed by
`log_step` is not shielded by the pipeline: the very first status write of
`build_rag_index` raises, the error handler itself writes status and raises
again, and the build aborts with the status-write exception. -/
theorem c2_amended_status_failure_aborts_build (env : Env) (pages : List Page)
    (s : PState) (h : env.statusFails = true) :
    build_rag_index env pages s = PyResult.exn "status write failed" s := by
  simp [build_rag_index, buildBody, log_step, h]

/-- Witness for the amended C2 at a concrete environment and state. -/
theorem c2_amended_witness :
    build_rag_index envBadStatus [] stEmpty
      = PyResult.exn "status write failed" stEmpty :=
  c2_amended_status_failure_aborts_build envBadStatus [] stEmpty rfl

/-- C4 (counterexample): the claim states that on a user with no stored
index `rag_chat` returns `context_used = 0`; the code builds the not-found
response without any `context_used` key, so reading it does not yield 0. -/
theorem c4_no_context_used_key :
    stEmpty.rag.metaDoc = none
    ∧ (rag_chat envG "q" stEmpty).context_used ≠ some 0 := by
  with_unfolding_all decide

/-- C4 (amended): on a user with no stored index, `rag_chat` never raises
and returns the fixed not-found answer with `matches = []` and an
explanatory `message`; the response carries no `context_used` key (modelled
as `none`) rather than `context_used = 0`. -/
theorem c4_amended_empty_index_not_found (env : Env) (q : String) (s : PState)
    (h : s.rag.metaDoc = none) :
    rag_chat env q s =
      { answer := "NOT_FOUND", «matches» := [], context_used := none,
        message := some "No relevant content found in your knowledge base.",
        error := none } := by
  unfold rag_chat search_similar_chunks
  cases henv : env.embedOne q <;> simp [h]

/-- Witness for the amended C4 at a concrete environment and state. -/
theorem c4_amended_witness :
    rag_chat envG "q" stEmpty =
      { answer := "NOT_FOUND", «matches» := [], context_used := none,
        message := some "No relevant content found in your knowledge base.",
        error := none } :=
  c4_amended_empty_index_not_found envG "q" stEmpty rfl

/-- When the status sink is healthy and there are enough embeddings, a
store run succeeds and produces exactly `storeEffect`, independently of
whether the clear found, deleted, or failed to delete a previous rag
document. -/
theorem store_vectors_ok (env : Env) (chunks : List ChunkDoc)
    (embeddings : List (List ℚ)) (s : PState)
    (hS : env.statusFails = false) (hLen : ¬ embeddings.length < chunks.length) :
    store_vectors_in_firestore env chunks embeddings s
      = PyResult.ok () (storeEffect env chunks embeddings s) := by
  cases hD : env.deleteFails with
  | true =>
    simp [store_vectors_in_firestore, storeBody, clear_old_vectors, log_step,
          hS, hD, hLen, storeEffect]
  | false =>
    cases hm : s.rag.metaDoc with
    | none =>
      simp [store_vectors_in_firestore, storeBody, clear_old_vectors, log_step,
            hS, hD, hLen, storeEffect, hm]
    | some m =>
      simp [store_vectors_in_firestore, storeBody, clear_old_vectors, log_step,
            hS, hD, hLen, storeEffect, hm]

/-- C10: if the Firestore get/delete inside `clear_old_vectors` raises
during storage, the failure is absorbed — the clear returns normally having
only logged the error to the status record and leaving the stored state
untouched — and the replace still proceeds: the store run succeeds, writing
the new metadata document and all chunk records.  A clear failure by itself
never aborts the build or propagates to the caller. -/
theorem c10_clear_failure_absorbed (env : Env) (chunks : List ChunkDoc)
    (embeddings : List (List ℚ)) (s : PState)
    (hS : env.statusFails = false) (hD : env.deleteFails = true)
    (hLen : ¬ embeddings.length < chunks.length) :
    clear_old_vectors env s
      = PyResult.ok () { s with currentStep := some ⟨"Clear Vectors", "error"⟩ }
    ∧ store_vectors_in_firestore env chunks embeddings s
        = PyResult.ok () (storeEffect env chunks embeddings s)
    ∧ (storeEffect env chunks embeddings s).rag.metaDoc
        = some (newRagMeta env (combineChunks chunks embeddings).length
            (uniquePages chunks))
    ∧ (storeEffect env chunks embeddings s).rag.chunks
        = writeChunksAux 0 (combineChunks chunks embeddings) s.rag.chunks := by
  refine ⟨?_, store_vectors_ok env chunks embeddings s hS hLen, rfl, rfl⟩
  simp [clear_old_vectors, log_step, hS, hD]

/-- Witness for C10 at a concrete environment, state, and build. -/
theorem c10_witness :
    clear_old_vectors envDel stOld
      = PyResult.ok () { stOld with currentStep := some ⟨"Clear Vectors", "error"⟩ }
    ∧ store_vectors_in_firestore envDel [newChunkDoc] [[5, 0]] stOld
        = PyResult.ok () (storeEffect envDel [newChunkDoc] [[5, 0]] stOld)
    ∧ (storeEffect envDel [newChunkDoc] [[5, 0]] stOld).rag.metaDoc
        = some (newRagMeta envDel (combineChunks [newChunkDoc] [[5, 0]]).length
            (uniquePages [newChunkDoc]))
    ∧ (storeEffect envDel [newChunkDoc] [[5, 0]] stOld).rag.chunks
        = writeChunksAux 0 (combineChunks [newChunkDoc] [[5, 0]]) stOld.rag.chunks :=
  c10_clear_failure_absorbed envDel [newChunkDoc] [[5, 0]] stOld rfl rfl (by decide)

/-- With a healthy status sink, each loop iteration of `generate_embeddings`
appends exactly one vector per batch element — whether the batched call
succeeds (under the remote contract of one vector per request), the batched
call raises (whole-batch zero substitution), or the per-item fallback runs
— so the loop output has one vector per pending chunk. -/
theorem genLoop_len (env : Env) (total : Nat)
    (hS : env.statusFails = false)
    (hB : ∀ ts vs, env.embedBatch ts = Except.ok vs → vs.length = ts.length) :
    ∀ n pending, pending.length = n → ∀ acc s,
      (genLoop env total pending acc s).1.length = acc.length + pending.length := by
  intro n
  induction n using Nat.strong_induction_on with
  | _ n ih =>
    intro pending hp acc s
    match pending with
    | [] => simp [genLoop]
    | p :: ps =>
      have hlt : (List.drop 20 (p :: ps)).length < n := by
        subst hp; simp only [List.length_drop, List.length_cons]; omega
      rw [genLoop]
      cases hbs : env.batchSupported with
      | false =>
        simp only [hbs, Bool.false_eq_true, if_false, log_step, hS]
        split
        · rw [ih _ hlt _ rfl]
          subst hp
          simp only [List.length_append, List.length_map, List.length_take,
            List.length_drop, List.length_cons]
          omega
        · rw [ih _ hlt _ rfl]
          subst hp
          simp only [List.length_append, List.length_map, List.length_take,
            List.length_drop, List.length_cons]
          omega
      | true =>
        simp only [hbs, if_true]
        cases hcall : env.embedBatch ((List.take 20 (p :: ps)).map (fun c => c.text)) with
        | error e =>
          rw [ih _ hlt _ rfl]
          subst hp
          simp only [List.length_append, List.length_map, List.length_take,
            List.length_drop, List.length_cons]
          omega
        | ok vs =>
          have hv : vs.length = (List.take 20 (p :: ps)).length := by
            rw [hB _ _ hcall]; simp
          simp only [log_step, hS, Bool.false_eq_true, if_false]
          split
          · rw [ih _ hlt _ rfl]
            subst hp
            simp only [List.length_append, List.length_take, List.length_drop,
              List.length_cons, hv]
            omega
          · rw [ih _ hlt _ rfl]
            subst hp
            simp only [List.length_append, List.length_take, List.length_drop,
              List.length_cons, hv]
            omega

/-- With a healthy status sink and no batched call available, the loop of
`generate_embeddings` produces exactly one per-item result per chunk, in
input order. -/
theorem genLoop_fallback (env : Env) (total : Nat)
    (hS : env.statusFails = false) (hb : env.batchSupported = false) :
    ∀ n pending, pending.length = n → ∀ acc s,
      (genLoop env total pending acc s).1 = acc ++ pending.map (itemEmbed env) := by
  intro n
  induction n using Nat.strong_induction_on with
  | _ n ih =>
    intro pending hp acc s
    match pending with
    | [] => simp [genLoop]
    | p :: ps =>
      have hlt : (List.drop 20 (p :: ps)).length < n := by
        subst hp; simp only [List.length_drop, List.length_cons]; omega
      rw [genLoop]
      simp only [hb, Bool.false_eq_true, if_false, log_step, hS]
      split
      · rw [ih _ hlt _ rfl, List.append_assoc, ← List.map_append, List.take_append_drop]
      · rw [ih _ hlt _ rfl, List.append_assoc, ← List.map_append, List.take_append_drop]

/-- With a healthy status sink, `generate_embeddings` returns normally and
its output has exactly one vector per input chunk (assuming the remote
batched call returns one vector per request when it succeeds). -/
theorem generate_embeddings_ok (env : Env) (chunks : List ChunkDoc) (s : PState)
    (hS : env.statusFails = false)
    (hB : ∀ ts vs, env.embedBatch ts = Except.ok vs → vs.length = ts.length) :
    ∃ es s', generate_embeddings env chunks s = PyResult.ok es s'
      ∧ es.length = chunks.length := by
  unfold generate_embeddings
  simp only [log_step, hS, Bool.false_eq_true, if_false]
  cases hg : genLoop env chunks.length chunks []
      { s with currentStep := some ⟨"Generating Embeddings", "starting"⟩ } with
  | mk es s2 =>
    refine ⟨es, { s2 with currentStep := some ⟨"Embeddings Generated", "completed"⟩ }, rfl, ?_⟩
    have h1 := genLoop_len env chunks.length hS hB chunks.length chunks rfl []
      { s with currentStep := some ⟨"Generating Embeddings", "starting"⟩ }
    rw [hg] at h1
    simpa using h1

/-- With a healthy status sink and no batched call available,
`generate_embeddings` returns exactly the list of per-item results, one per
chunk in input order. -/
theorem generate_embeddings_fallback (env : Env) (chunks : List ChunkDoc) (s : PState)
    (hS : env.statusFails = false) (hb : env.batchSupported = false) :
    ∃ s', generate_embeddings env chunks s
      = PyResult.ok (chunks.map (itemEmbed env)) s' := by
  unfold generate_embeddings
  simp only [log_step, hS, Bool.false_eq_true, if_false]
  cases hg : genLoop env chunks.length chunks []
      { s with currentStep := some ⟨"Generating Embeddings", "starting"⟩ } with
  | mk es s2 =>
    have h1 := genLoop_fallback env chunks.length hS hb chunks.length chunks rfl []
      { s with currentStep := some ⟨"Generating Embeddings", "starting"⟩ }
    rw [hg] at h1
    simp only at h1
    refine ⟨{ s2 with currentStep := some ⟨"Embeddings Generated", "completed"⟩ }, ?_⟩
    simp [h1]

/-- C6: for every sequence of input chunks, `generate_embeddings` returns
exactly one vector per input chunk (`len(embeddings) == len(chunks)`),
including when individual item calls or whole batch calls fail and neutral
zero-vectors are substituted.  Hypotheses: the status sink is healthy (a
down status sink makes the surrounding logging raise before any embedding
work), and a successful remote batched call returns one vector per request
(its documented interface). -/
theorem c6_embedding_correspondence (env : Env) (chunks : List ChunkDoc)
    (s : PState) (hS : env.statusFails = false)
    (hB : ∀ ts vs, env.embedBatch ts = Except.ok vs → vs.length = ts.length) :
    ∃ es s', generate_embeddings env chunks s = PyResult.ok es s'
      ∧ es.length = chunks.length :=
  generate_embeddings_ok env chunks s hS hB

set_option maxRecDepth 40000 in
/-- Witness for C6: with every remote embedding call failing, a three-chunk
run still returns exactly three vectors (the substituted zero-vectors). -/
theorem c6_witness :
    generate_embeddings envBatchFail [cdocOf "A", cdocOf "B", cdocOf "C"] stEmpty
      = PyResult.ok [zero768, zero768, zero768]
          { stEmpty with currentStep := some ⟨"Embeddings Generated", "completed"⟩ }
    ∧ ∃ es s',
        generate_embeddings envBatchFail [cdocOf "A", cdocOf "B", cdocOf "C"] stEmpty
          = PyResult.ok es s'
        ∧ es.length = [cdocOf "A", cdocOf "B", cdocOf "C"].length :=
  ⟨by with_unfolding_all decide,
   c6_embedding_correspondence envBatchFail _ stEmpty rfl (fun ts vs h => by
     simp [envBatchFail, envG] at h)⟩

/-- C7: in per-item fallback mode (the batched call raising
AttributeError), a failing remote call for one chunk does not abort the
batch: the run returns normally with one per-item result per chunk in
input order, and the result substituted for any chunk whose call failed is
the all-zero vector of the configured dimension 768. -/
theorem c7_degrade_not_fail (env : Env) (chunks : List ChunkDoc) (s : PState)
    (hS : env.statusFails = false) (hb : env.batchSupported = false) :
    (∃ s', generate_embeddings env chunks s
        = PyResult.ok (chunks.map (itemEmbed env)) s')
    ∧ ∀ c e, env.embedOne c.text = Except.error e →
        itemEmbed env c = List.replicate 768 0 := by
  refine ⟨generate_embeddings_fallback env chunks s hS hb, ?_⟩
  intro c e he
  simp [itemEmbed, he, zero768]

set_option maxRecDepth 40000 in
/-- Witness for C7: with the middle chunk failing, the other two chunks are
still embedded and the failed one receives the 768-dimensional zero
vector. -/
theorem c7_witness :
    generate_embeddings envNoBatch [cdocOf "A", cdocOf "B", cdocOf "C"] stEmpty
      = PyResult.ok [[(7 : ℚ)], List.replicate 768 0, [(7 : ℚ)]]
          { stEmpty with currentStep := some ⟨"Embeddings Generated", "completed"⟩ }
    ∧ itemEmbed envNoBatch (cdocOf "B") = List.replicate 768 0 :=
  ⟨by with_unfolding_all decide,
   (c7_degrade_not_fail envNoBatch [cdocOf "A", cdocOf "B", cdocOf "C"] stEmpty
     rfl rfl).2 (cdocOf "B") "boom" (by simp [envNoBatch, envG, cdocOf])⟩


/-- A vector all of whose entries are zero has zero sum of squares. -/
theorem sumSq_eq_zero (v : List ℚ) (h : ∀ x ∈ v, x = 0) : sumSq v = 0 := by
  induction v with
  | nil => simp [sumSq]
  | cons a t ih =>
    have ha : a = 0 := h a (List.mem_cons_self a t)
    have ht : sumSq t = 0 := ih (fun x hx => h x (List.mem_cons_of_mem a hx))
    simp [sumSq] at ht ⊢
    rw [ha]
    simpa using ht

/-- The modelled square root of zero is zero. -/
theorem ratSqrt_zero : ratSqrt 0 = 0 := by
  with_unfolding_all decide

/-- Every pair kept by the similarity loop passed the positive-norm check,
so its chunk embedding has a nonzero entry. -/
theorem scoreChunks_mem (qe : List ℚ) (cs : List StoredChunk)
    (p : ℚ × StoredChunk) (hp : p ∈ scoreChunks qe cs) :
    ∃ x ∈ p.2.embedding, x ≠ 0 := by
  obtain ⟨c, hc, hfc⟩ := List.mem_filterMap.mp hp
  simp only at hfc
  split_ifs at hfc with h1 h2
  injection hfc with h3
  subst h3
  by_contra hno
  push_neg at hno
  have hz : sumSq c.embedding = 0 := sumSq_eq_zero _ hno
  rw [hz, ratSqrt_zero] at h2
  exact absurd h2.2 (lt_irrefl 0)

/-- C8: for every stored index and every query, a chunk whose stored
embedding has zero norm (in particular the all-zero degrade-fallback
vector, or an empty vector) never appears in the results of
`search_similar_chunks`: every returned chunk has some nonzero embedding
entry. -/
theorem c8_zero_norm_excluded (env : Env) (q : String) (k : Nat) (s : PState)
    (rs : List SearchResult) (s2 : PState)
    (h : search_similar_chunks env q k s = PyResult.ok rs s2) :
    ∀ r ∈ rs, ∃ x ∈ r.chunk.embedding, x ≠ 0 := by
  intro r hr
  unfold search_similar_chunks at h
  cases he : env.embedOne q with
  | error e =>
    rw [he] at h
    injection h with h1 h2
    subst h1
    exact absurd hr (List.not_mem_nil r)
  | ok qe =>
    rw [he] at h
    cases hm : s.rag.metaDoc with
    | none =>
      rw [hm] at h
      injection h with h1 h2
      subst h1
      exact absurd hr (List.not_mem_nil r)
    | some m =>
      rw [hm] at h
      injection h with h1 h2
      subst h1
      obtain ⟨p, hp, rfl⟩ := List.mem_map.mp hr
      have hp2 : p ∈ rankChunks qe (streamChunks s.rag) := List.take_subset _ _ hp
      have hp3 : p ∈ (scoreChunks qe (streamChunks s.rag)).enum :=
        (List.perm_insertionSort simLE _).subset hp2
      have hp4 : p.2 ∈ scoreChunks qe (streamChunks s.rag) := by
        have hmm := List.mem_map_of_mem Prod.snd hp3
        rwa [List.enum_map_snd] at hmm
      exact scoreChunks_mem _ _ _ hp4

set_option maxRecDepth 40000 in
/-- Witness for C8: on an index holding a zero-vector chunk and a nonzero
chunk, the single returned result has a nonzero embedding entry. -/
theorem c8_witness : ∃ x ∈ (storedOf "A" "PA" 1 2 [1, 0]).embedding, x ≠ 0 :=
  c8_zero_norm_excluded envG "q" 5 stZero
    [{ score := 1, chunk := storedOf "A" "PA" 1 2 [1, 0],
       metadata := chunkMetaOf "A" "PA" 1 2 }] stZero
    (by with_unfolding_all decide)
    { score := 1, chunk := storedOf "A" "PA" 1 2 [1, 0],
      metadata := chunkMetaOf "A" "PA" 1 2 }
    (by simp)

set_option maxRecDepth 40000 in
/-- C5 (counterexample): the claim states that equal-similarity ties are
ranked by ascending `chunk_index`.  On an index where page A stored chunks
at offsets 0, 1 (page-local indexes 0, 1) and page B stored the chunk at
offset 2 (page-local index 0), all with the same embedding, the three
results tie on score, and the result at position 1 has `chunk_index = 1`
while the result at position 2 has `chunk_index = 0` — the tie is broken by
storage stream order, not by ascending `chunk_index`. -/
theorem c5_counterexample :
    ((resultsOf (search_similar_chunks envG "q" 5 stTie)).get? 1).map
        (fun r => (r.score, r.metadata.chunk_index)) = some (1, 1)
    ∧ ((resultsOf (search_similar_chunks envG "q" 5 stTie)).get? 2).map
        (fun r => (r.score, r.metadata.chunk_index)) = some (1, 0) := by
  with_unfolding_all decide

/-- C5 (amended): retrieval is deterministic — the result depends only on
the query-embedding response and the stored rag region, so two calls with
the same `top_k` return identical ordered results — and the ranking is
sorted by `simLE`: strictly greater similarity first, ties ordered by
position in the document stream (ascending document id, the storage
order), not by ascending per-page `chunk_index`. -/
theorem c5_amended_deterministic_stream_ties :
    (∀ qe cs, List.Sorted simLE (rankChunks qe cs))
    ∧ ∀ (env envB : Env) (q : String) (k : Nat) (s sB : PState),
        env.embedOne q = envB.embedOne q → s.rag = sB.rag →
        ∃ res, search_similar_chunks env q k s = PyResult.ok res s
          ∧ search_similar_chunks envB q k sB = PyResult.ok res sB := by
  constructor
  · intro qe cs
    exact List.sorted_insertionSort simLE _
  · intro env envB q k s sB h1 h2
    unfold search_similar_chunks
    rw [h1, h2]
    cases envB.embedOne q with
    | error e => exact ⟨[], rfl, rfl⟩
    | ok qe =>
      cases sB.rag.metaDoc with
      | none => exact ⟨[], rfl, rfl⟩
      | some m => exact ⟨_, rfl, rfl⟩

/-- Witness for the amended C5: two calls through different environments
and states that agree on the query embedding and the stored rag region
return the same ordered results. -/
theorem c5_amended_witness :
    ∃ res, search_similar_chunks envG "q" 5 stTie = PyResult.ok res stTie
      ∧ search_similar_chunks envAlt "q" 5
          { stTie with currentStep := some ⟨"during build", "x"⟩ }
        = PyResult.ok res { stTie with currentStep := some ⟨"during build", "x"⟩ } :=
  c5_amended_deterministic_stream_ties.2 envG envAlt "q" 5 stTie
    { stTie with currentStep := some ⟨"during build", "x"⟩ } rfl rfl


/-- A Firestore set makes the written record readable at its id. -/
theorem lookup_upsert_self (k : Nat) (v : StoredChunk) :
    ∀ m, ((upsert k v m).lookup k) = some v := by
  intro m
  induction m with
  | nil => simp [upsert, List.lookup]
  | cons kv t ih =>
    obtain ⟨k2, v2⟩ := kv
    by_cases hk : k2 = k
    · subst hk; simp [upsert, List.lookup]
    · have hbeq : (k == k2) = false := by simp [Ne.symm hk]
      simp [upsert, hk, List.lookup, hbeq, ih]

/-- A Firestore set at a larger id leaves smaller ids unchanged. -/
theorem lookup_upsert_lt (k k2 : Nat) (v : StoredChunk) (h : k < k2) :
    ∀ m, ((upsert k2 v m).lookup k) = m.lookup k := by
  intro m
  have hk : k ≠ k2 := Nat.ne_of_lt h
  have hbeq : (k == k2) = false := by simp [hk]
  induction m with
  | nil => simp [upsert, List.lookup, hbeq]
  | cons kv t ih =>
    obtain ⟨k3, v3⟩ := kv
    by_cases hk3 : k3 = k2
    · subst hk3; simp [upsert, List.lookup, hbeq]
    · simp [upsert, hk3, List.lookup, ih]

/-- The chunk-writing loop starting at `base` leaves ids below `base`
unchanged. -/
theorem lookup_writeChunksAux_lt (cs : List StoredChunk) :
    ∀ base m k, k < base → ((writeChunksAux base cs m).lookup k) = m.lookup k := by
  induction cs with
  | nil => intro base m k h; rfl
  | cons c t ih =>
    intro base m k h
    show ((writeChunksAux (base + 1) t (upsert base c m)).lookup k) = _
    rw [ih (base + 1) _ k (by omega), lookup_upsert_lt k base c h m]

/-- After the chunk-writing loop, the id `base` holds the first written
record. -/
theorem lookup_writeChunksAux_head (c : StoredChunk) (cs : List StoredChunk)
    (base : Nat) (m : List (Nat × StoredChunk)) :
    ((writeChunksAux base (c :: cs) m).lookup base) = some c := by
  show ((writeChunksAux (base + 1) cs (upsert base c m)).lookup base) = some c
  rw [lookup_writeChunksAux_lt cs (base + 1) _ base (by omega), lookup_upsert_self]

/-- With fewer embeddings than chunks, the store run raises the IndexError
of `embeddings[i]` (re-raised by its handler). -/
theorem store_vectors_exn (env : Env) (chunks : List ChunkDoc)
    (embeddings : List (List ℚ)) (s : PState) (hS : env.statusFails = false)
    (hLen : embeddings.length < chunks.length) :
    ∃ s2, store_vectors_in_firestore env chunks embeddings s
      = PyResult.exn "IndexError: list index out of range" s2 := by
  cases hD : env.deleteFails with
  | true =>
    refine ⟨{ s with currentStep := some ⟨"Storing Vectors",
      "error: " ++ "IndexError: list index out of range"⟩ }, ?_⟩
    simp [store_vectors_in_firestore, storeBody, clear_old_vectors, log_step,
          hS, hD, hLen]
  | false =>
    cases hm : s.rag.metaDoc with
    | none =>
      refine ⟨{ s with currentStep := some ⟨"Storing Vectors",
        "error: " ++ "IndexError: list index out of range"⟩ }, ?_⟩
      simp [store_vectors_in_firestore, storeBody, clear_old_vectors, log_step,
            hS, hD, hm, hLen]
    | some m0 =>
      refine ⟨{ s with
        rag := { s.rag with metaDoc := none },
        currentStep := some ⟨"Storing Vectors",
          "error: " ++ "IndexError: list index out of range"⟩ }, ?_⟩
      simp [store_vectors_in_firestore, storeBody, clear_old_vectors, log_step,
            hS, hD, hm, hLen]

/-- Inversion: a store run that returned normally had enough embeddings
and produced exactly `storeEffect`. -/
theorem store_ok_inv (env : Env) (chunks : List ChunkDoc)
    (embeddings : List (List ℚ)) (s : PState) (u : Unit) (s5 : PState)
    (hS : env.statusFails = false)
    (h : store_vectors_in_firestore env chunks embeddings s = PyResult.ok u s5) :
    ¬ embeddings.length < chunks.length
    ∧ s5 = storeEffect env chunks embeddings s := by
  by_cases hLen : embeddings.length < chunks.length
  · obtain ⟨s2, hs⟩ := store_vectors_exn env chunks embeddings s hS hLen
    rw [hs] at h
    exact absurd h (by simp)
  · refine ⟨hLen, ?_⟩
    rw [store_vectors_ok env chunks embeddings s hS hLen] at h
    injection h with _ h2
    exact h2.symm

/-- A failing status sink aborts `build_rag_index` at its very first
status write. -/
theorem build_exn_of_status (env : Env) (pages : List Page) (s : PState)
    (h : env.statusFails = true) :
    build_rag_index env pages s = PyResult.exn "status write failed" s := by
  simp [build_rag_index, buildBody, log_step, h]

/-- C3 (amended): a `build_rag_index` run that returns successfully either
was a no-op — the user had no pages, or no page produced any chunk, in
which case nothing was written and the previous stored index (if any) is
untouched — or it stored a populated index: a metadata document with a
positive chunk count plus a chunk record at document offset 0. -/
theorem c3_amended_build_cases (env : Env) (pages : List Page) (s sF : PState)
    (h : build_rag_index env pages s = PyResult.ok () sF) :
    (create_chunks_core env pages = [] ∧ sF.rag = s.rag)
    ∨ ∃ m, sF.rag.metaDoc = some m ∧ 0 < m.total_chunks
        ∧ ∃ rc, sF.rag.chunks.lookup 0 = some rc := by
  cases hS : env.statusFails with
  | true =>
    rw [build_exn_of_status env pages s hS] at h
    exact absurd h (by simp)
  | false =>
    unfold build_rag_index buildBody load_user_pages create_chunks_with_metadata at h
    simp only [log_step, hS, Bool.false_eq_true, if_false] at h
    cases hp : pages.isEmpty with
    | true =>
      simp only [hp, if_true] at h
      left
      have hpn : pages = [] := List.isEmpty_iff.mp hp
      injection h with _ h2
      subst h2
      exact ⟨by simp [create_chunks_core, hpn], rfl⟩
    | false =>
      simp only [hp, Bool.false_eq_true, if_false] at h
      cases hc : (create_chunks_core env pages).isEmpty with
      | true =>
        simp only [hc, if_true] at h
        left
        injection h with _ h2
        subst h2
        exact ⟨List.isEmpty_iff.mp hc, rfl⟩
      | false =>
        simp only [hc, Bool.false_eq_true, if_false] at h
        cases hg : generate_embeddings env (create_chunks_core env pages)
            { s with currentStep := some ⟨"Chunks Created", "completed"⟩ } with
        | exn e s4 =>
          simp only [hg] at h
          exact absurd h (by simp)
        | ok es s4 =>
          simp only [hg] at h
          cases hst : store_vectors_in_firestore env
              (create_chunks_core env pages) es s4 with
          | exn e s5 =>
            simp only [hst] at h
            exact absurd h (by simp)
          | ok u s5 =>
            simp only [hst] at h
            obtain ⟨hLen, hEff⟩ := store_ok_inv env _ es s4 u s5 hS hst
            right
            injection h with _ h2
            subst h2
            subst hEff
            have hcore : 0 < (create_chunks_core env pages).length :=
              List.length_pos.mpr (List.isEmpty_eq_false.mp hc)
            have hle : (create_chunks_core env pages).length ≤ es.length :=
              Nat.le_of_not_lt hLen
            have hcwv : 0 < (combineChunks (create_chunks_core env pages) es).length := by
              simp only [combineChunks, List.length_zipWith]
              omega
            obtain ⟨c0, rest, hcw⟩ :
                ∃ c0 rest, combineChunks (create_chunks_core env pages) es = c0 :: rest := by
              cases hx : combineChunks (create_chunks_core env pages) es with
              | nil => rw [hx] at hcwv; simp at hcwv
              | cons a b => exact ⟨a, b, rfl⟩
            refine ⟨newRagMeta env
              (combineChunks (create_chunks_core env pages) es).length
              (uniquePages (create_chunks_core env pages)), ?_, ?_, c0, ?_⟩
            · simp [storeEffect]
            · simpa [newRagMeta] using hcwv
            · simp only [storeEffect]
              rw [hcw]
              exact lookup_writeChunksAux_head c0 rest 0 _

set_option maxRecDepth 40000 in
/-- C3 (counterexample): the claim states that `build_rag_index` either
completes having written a populated index or raises.  For a user with no
pages the build returns successfully while writing neither a metadata
document nor any chunk record. -/
theorem c3_counterexample :
    (build_rag_index envG [] stEmpty).isOk = true
    ∧ (build_rag_index envG [] stEmpty).state.rag.metaDoc = none
    ∧ (build_rag_index envG [] stEmpty).state.rag.chunks = [] := by
  with_unfolding_all decide

set_option maxRecDepth 40000 in
/-- Witness for the amended C3 at a concrete no-page build. -/
theorem c3_witness :
    (create_chunks_core envG [] = []
      ∧ ({ stEmpty with currentStep := some ⟨"RAG Pipeline",
            "completed: No pages found"⟩ } : PState).rag = stEmpty.rag)
    ∨ ∃ m, ({ stEmpty with currentStep := some ⟨"RAG Pipeline",
            "completed: No pages found"⟩ } : PState).rag.metaDoc = some m
        ∧ 0 < m.total_chunks
        ∧ ∃ rc, ({ stEmpty with currentStep := some ⟨"RAG Pipeline",
            "completed: No pages found"⟩ } : PState).rag.chunks.lookup 0 = some rc :=
  c3_amended_build_cases envG [] stEmpty _ (by with_unfolding_all decide)

/-- Dropping the overlap from every chunk and concatenating yields the
text minus its first `CHUNK_OVERLAP` characters. -/
theorem chunksOfText_flatten_drop :
    ∀ n t, List.length t ≤ n →
      ((chunksOfText t).map (fun d => d.drop CHUNK_OVERLAP)).flatten
        = t.drop CHUNK_OVERLAP := by
  intro n
  induction n using Nat.strong_induction_on with
  | _ n ih =>
    intro t ht
    by_cases h : t.length ≤ CHUNK_SIZE
    · rw [chunksOfText, dif_pos h]
      simp
    · rw [chunksOfText, dif_neg h]
      simp only [CHUNK_SIZE, CHUNK_OVERLAP] at *
      have hn : 1000 < n := by omega
      have hdl : (t.drop (1000 - 200)).length ≤ n - 800 := by
        simp only [List.length_drop]; omega
      rw [List.map_cons, List.flatten_cons, ih (n - 800) (by omega) _ hdl]
      rw [List.drop_take, List.drop_drop]
      have h1 : (1000 : Nat) - 200 = 800 := by norm_num
      have h2 : (200 : Nat) + (1000 - 200) = 1000 := by norm_num
      rw [h1, h2]
      have h3 : (1000 : Nat) = 200 + 800 := by norm_num
      calc (t.drop 200).take (1000 - 200) ++ t.drop 1000
          = (t.drop 200).take 800 ++ (t.drop 200).drop 800 := by
            rw [h3, ← List.drop_drop]
        _ = t.drop 200 := List.take_append_drop _ _

/-- The first chunk is always the first `CHUNK_SIZE` characters of the
text. -/
theorem chunksOfText_head (t : List Char) :
    ∃ rest, chunksOfText t = t.take CHUNK_SIZE :: rest := by
  by_cases h : t.length ≤ CHUNK_SIZE
  · refine ⟨[], ?_⟩
    rw [chunksOfText, dif_pos h, List.take_of_length_le h]
  · exact ⟨_, by rw [chunksOfText, dif_neg h]⟩

/-- Adjacent chunks overlap exactly: the first `CHUNK_OVERLAP` characters
of chunk `i + 1` are the final `CHUNK_OVERLAP` characters of chunk `i`. -/
theorem chunksOfText_chain :
    ∀ n t, List.length t ≤ n →
      List.Chain' (fun a b => b.take CHUNK_OVERLAP = a.drop (a.length - CHUNK_OVERLAP))
        (chunksOfText t) := by
  intro n
  induction n using Nat.strong_induction_on with
  | _ n ih =>
    intro t ht
    by_cases h : t.length ≤ CHUNK_SIZE
    · rw [chunksOfText, dif_pos h]
      exact List.chain'_singleton _
    · rw [chunksOfText, dif_neg h]
      rw [List.chain'_cons']
      constructor
      · intro b hb
        obtain ⟨rest, hres⟩ := chunksOfText_head (t.drop (CHUNK_SIZE - CHUNK_OVERLAP))
        rw [hres] at hb
        simp only [List.head?_cons, Option.mem_def, Option.some.injEq] at hb
        subst hb
        have hlen : (t.take CHUNK_SIZE).length = CHUNK_SIZE := by
          rw [List.length_take]
          simp only [CHUNK_SIZE] at *
          omega
        rw [hlen, List.take_take, List.drop_take]
        simp only [CHUNK_SIZE, CHUNK_OVERLAP]
        norm_num
      · apply ih (n - 800) ?_ _ ?_
        · simp only [CHUNK_SIZE] at h; omega
        · simp only [List.length_drop, CHUNK_SIZE, CHUNK_OVERLAP]
          omega

/-- C9: for every non-empty normalized text, concatenating the chunks in
`chunk_index` order while removing the overlap regions (the final
`CHUNK_OVERLAP` characters of chunk `i` reappearing at the start of chunk
`i + 1`, which the second conjunct proves they do) reconstructs the
original text exactly.  The chunk splitter itself is modelled from the
spec (see `chunksOfText`): the real splitter is an external langchain
class whose code is not in this repository. -/
theorem c9_chunk_coverage (s : List Char) (hne : s ≠ []) :
    reconstruct (chunksOfText s) = s
    ∧ List.Chain' (fun a b => b.take CHUNK_OVERLAP = a.drop (a.length - CHUNK_OVERLAP))
        (chunksOfText s) := by
  refine ⟨?_, chunksOfText_chain s.length s le_rfl⟩
  by_cases h : s.length ≤ CHUNK_SIZE
  · rw [chunksOfText, dif_pos h]
    simp [reconstruct]
  · rw [chunksOfText, dif_neg h]
    show s.take CHUNK_SIZE
        ++ ((chunksOfText (s.drop (CHUNK_SIZE - CHUNK_OVERLAP))).map
            (fun d => d.drop CHUNK_OVERLAP)).flatten = s
    rw [chunksOfText_flatten_drop (s.drop (CHUNK_SIZE - CHUNK_OVERLAP)).length _ le_rfl]
    rw [List.drop_drop]
    simp only [CHUNK_SIZE, CHUNK_OVERLAP]
    norm_num

/-- Witness for C9 at a concrete two-character text. -/
theorem c9_witness :
    (['a', 'b'] : List Char) ≠ []
    ∧ (reconstruct (chunksOfText ['a', 'b']) = ['a', 'b']
       ∧ List.Chain'
           (fun a b => b.take CHUNK_OVERLAP = a.drop (a.length - CHUNK_OVERLAP))
           (chunksOfText ['a', 'b'])) :=
  ⟨by decide, c9_chunk_coverage ['a', 'b'] (by decide)⟩
